import Mathlib

/-!
Verification development for the SentinelStream transaction risk-decision
pipeline.  The definitions below are a shallow embedding of the Python
sources `app/rules.py`, `app/idempotency.py`, `app/model_scorer.py` and the
`/transaction` handler `process_transaction` in `app/main.py`.  Python
floats are modelled as rationals, wall-clock instants as rational seconds,
and fallible dependency calls as explicit `Except`/`Bool` outcomes threaded
through an environment record.
-/

namespace SentinelStream

/-- Wall-clock instants, in seconds (`datetime.utcnow()`). -/
abbrev Time := ℚ

/-- A transaction attribute value as placed in `transaction_data` by
`process_transaction` (`app/main.py` lines 192-199): a float, a string, or
Python `None` (for the optional `location`/`merchant_id`). -/
inductive TxnValue where
| num (q : ℚ)
| str (s : String)
| null
deriving DecidableEq

/-- A scalar JSON value inside a membership list of a rule condition. -/
inductive ScalarValue where
| num (q : ℚ)
| str (s : String)
| null
deriving DecidableEq

/-- A JSON value appearing in the `value` slot of a stored rule condition
(`rule_condition` is a JSON column, `app/models.py` line 94): a number, a
string, `null`, or a list.  Membership lists hold scalars here; a nested
list element could never compare equal to a (scalar) transaction value
anyway. -/
inductive RuleValue where
| num (q : ℚ)
| str (s : String)
| null
| list (l : List ScalarValue)
deriving DecidableEq

/-- True exactly on `RuleValue.list` (Python `isinstance(b, list)`). -/
def RuleValue.isList : RuleValue → Bool
| .list _ => true
| _ => false

/-- Digit string to natural number. -/
def natOfDigits (l : List Char) : ℕ :=
  l.foldl (fun n c => 10 * n + (c.toNat - 48)) 0

/-- Unsigned part of a Python `float(s)` parse: digits with an optional
fractional part.  `Option.none` models a `ValueError`. -/
def parseFloatCore (l : List Char) : Option ℚ :=
  let p := l.span Char.isDigit
  match p.2 with
  | [] => if p.1.isEmpty then Option.none else some (natOfDigits p.1 : ℚ)
  | '.' :: frac =>
    if frac.all Char.isDigit && !(p.1.isEmpty && frac.isEmpty) then
      some ((natOfDigits p.1 : ℚ) + (natOfDigits frac : ℚ) / (10 : ℚ) ^ frac.length)
    else Option.none
  | _ => Option.none

/-- Model of the Python builtin `float` applied to a string (used for the
numeric coercion in `evaluate_condition`, `app/rules.py` lines 36-40):
surrounding whitespace is stripped, then an optional sign and a plain
decimal literal are accepted; anything else fails (`Option.none` models the
raised `ValueError`).  CPython additionally accepts exponents, underscores
and `inf`/`nan` spellings, which no rule in this repository relies on. -/
def parseFloat (s : String) : Option ℚ :=
  match ((s.toList.dropWhile Char.isWhitespace).reverse.dropWhile
      Char.isWhitespace).reverse with
  | '-' :: rest => (parseFloatCore rest).map (fun q => -q)
  | '+' :: rest => parseFloatCore rest
  | l => parseFloatCore l

/-- Python `==` between a transaction value and a rule value: values of
different runtime types compare unequal without raising. -/
def pyEq : TxnValue → RuleValue → Bool
| .num a, .num b => a == b
| .str a, .str b => a == b
| .null, .null => true
| _, _ => false

/-- Whether the Python ordering comparisons are defined between the two
values: both numbers or both strings; any other pairing raises
`TypeError`. -/
def comparable : TxnValue → RuleValue → Bool
| .num _, .num _ => true
| .str _, .str _ => true
| _, _ => false

/-- Python `a < b`; `Option.none` models a raised `TypeError`. -/
def pyLt : TxnValue → RuleValue → Option Bool
| .num a, .num b => some (decide (a < b))
| .str a, .str b => some (decide (a < b))
| _, _ => Option.none

/-- Python `a <= b`; `Option.none` models a raised `TypeError`. -/
def pyLe : TxnValue → RuleValue → Option Bool
| .num a, .num b => some (decide (a ≤ b))
| .str a, .str b => some (decide (a ≤ b))
| _, _ => Option.none

/-- Python `a > b`; `Option.none` models a raised `TypeError`. -/
def pyGt : TxnValue → RuleValue → Option Bool
| .num a, .num b => some (decide (b < a))
| .str a, .str b => some (decide (b < a))
| _, _ => Option.none

/-- Python `a >= b`; `Option.none` models a raised `TypeError`. -/
def pyGe : TxnValue → RuleValue → Option Bool
| .num a, .num b => some (decide (b ≤ a))
| .str a, .str b => some (decide (b ≤ a))
| _, _ => Option.none

/-- Python `==` between a transaction value and a membership-list element. -/
def pyEqScalar : TxnValue → ScalarValue → Bool
| .num a, .num b => a == b
| .str a, .str b => a == b
| .null, .null => true
| _, _ => false

/-- Python `a in l` for a list `l`: elementwise equality. -/
def pyMem (a : TxnValue) (l : List ScalarValue) : Bool :=
  l.any (fun v => pyEqScalar a v)

/-- Whether `sub` occurs at the start of `s`. -/
def beginsWith : List Char → List Char → Bool
| [], _ => true
| _ :: _, [] => false
| a :: as, b :: bs => a == b && beginsWith as bs

/-- Whether `sub` occurs contiguously somewhere in `s` (Python substring
membership `sub in s`). -/
def occursIn (sub s : List Char) : Bool :=
  match s with
  | [] => sub.isEmpty
  | _ :: t => beginsWith sub s || occursIn sub t

/-- The `contains` operator: `b in str(a) if isinstance(a, (str, list))
else False`; transaction values are never lists, `str` of a string is
itself, and `b in s` for non-string `b` raises a `TypeError` that the
caller turns into `False`. -/
def pyContains (a : TxnValue) (b : RuleValue) : Bool :=
  match a, b with
  | .str s, .str sub => occursIn sub.toList s.toList
  | _, _ => false

/-- A leaf predicate `{field, operator, value}` of a rule condition. -/
structure Condition where
  field : String
  operator : String
  value : RuleValue
deriving DecidableEq

/-- The transaction attribute map handed to the rule engine. -/
abbrev TxnData := List (String × TxnValue)

/-- Lookup modelling `field in transaction` / `transaction[field]`. -/
def lookupField (txn : TxnData) (f : String) : Option TxnValue :=
  (txn.find? (fun p => p.1 == f)).map (fun p => p.2)

/-- The numeric coercion step of `evaluate_condition` (`app/rules.py` lines
36-40): when the rule value is numeric and the transaction value is a
string, attempt a float parse; `Option.none` models the early
`return False` on parse failure. -/
def coerceValue (v : RuleValue) (tv : TxnValue) : Option TxnValue :=
  match v, tv with
  | RuleValue.num _, TxnValue.str s =>
    match parseFloat s with
    | some q => some (TxnValue.num q)
    | Option.none => Option.none
  | _, _ => some tv

/-- The operator dispatch table of `evaluate_condition` (`app/rules.py`
lines 43-61): the ordering operators are evaluated inside
`try/except (TypeError, ValueError)` returning `False`, membership requires
a list for `in` (but `not_in` on a non-list is `True`), and an unknown
operator is `False`. -/
def applyOperator (op : String) (a : TxnValue) (b : RuleValue) : Bool :=
  if op = "==" then pyEq a b
  else if op = "!=" then !pyEq a b
  else if op = ">" then (pyGt a b).getD false
  else if op = ">=" then (pyGe a b).getD false
  else if op = "<" then (pyLt a b).getD false
  else if op = "<=" then (pyLe a b).getD false
  else if op = "in" then
    match b with
    | RuleValue.list l => pyMem a l
    | _ => false
  else if op = "not_in" then
    match b with
    | RuleValue.list l => !pyMem a l
    | _ => true
  else if op = "contains" then pyContains a b
  else false

/-- Embeds `RuleEngine.evaluate_condition` (`app/rules.py` lines 24-61). -/
def evaluate_condition (cond : Condition) (txn : TxnData) : Bool :=
  match lookupField txn cond.field with
  | Option.none => false
  | some tv =>
    match coerceValue cond.value tv with
    | Option.none => false
    | some a => applyOperator cond.operator a cond.value

/-- A stored rule condition: either a single leaf predicate, or a
`{"logic": ..., "conditions": [...]}` combinator (whose members are leaf
predicates; `evaluate_conditions` passes them to `evaluate_condition`). -/
inductive RuleCondition where
| leaf (c : Condition)
| combo (logic : String) (conditions : List Condition)
deriving DecidableEq

/-- Embeds `RuleEngine.evaluate_conditions` (`app/rules.py` lines 63-80). -/
def evaluate_conditions (c : RuleCondition) (txn : TxnData) : Bool :=
  match c with
  | .combo logic conds =>
    if logic.toUpper = "AND" then conds.all (fun cond => evaluate_condition cond txn)
    else if logic.toUpper = "OR" then conds.any (fun cond => evaluate_condition cond txn)
    else false
  | .leaf c => evaluate_condition c txn

/-- The `rule_actions` JSON payload: an optional `risk_score` and a `flag`
boolean. -/
structure RuleActions where
  risk_score : Option ℚ
  flag : Bool
deriving DecidableEq

/-- A `FraudRule` row as consumed by the engine (`app/models.py` lines
85-103): `rule_actions` may be `NULL` (`rule.rule_actions or {}`). -/
structure FraudRule where
  id : ℤ
  rule_name : String
  rule_condition : RuleCondition
  rule_actions : Option RuleActions
deriving DecidableEq

/-- Models `actions = rule.rule_actions or` the empty dict (`app/rules.py` line 97). -/
def actionsOf (r : FraudRule) : RuleActions :=
  r.rule_actions.getD ⟨Option.none, false⟩

/-- Models `actions.get("risk_score", 0.5)` (`app/rules.py` line 100). -/
def riskOf (r : FraudRule) : ℚ :=
  (actionsOf r).risk_score.getD 0.5

/-- An entry of the `triggered_rules` output list. -/
structure TriggeredRule where
  rule_name : String
  rule_id : ℤ
  risk_score : ℚ
deriving DecidableEq

/-- The result of `RuleEngine.evaluate_transaction`. -/
structure RuleResult where
  rule_score : ℚ
  triggered_rules : List TriggeredRule
  flags : List String
deriving DecidableEq

/-- The `for rule in self.rules` loop of `evaluate_transaction`
(`app/rules.py` lines 94-112), with the running score, triggered list and
flag list as accumulators. -/
def evalRulesLoop (txn : TxnData) :
    List FraudRule → ℚ → List TriggeredRule → List String →
    ℚ × List TriggeredRule × List String
| [], score, trig, flags => (score, trig, flags)
| r :: rest, score, trig, flags =>
  if evaluate_conditions r.rule_condition txn then
    let risk := riskOf r
    let score1 := if risk > score then risk else score
    let flags1 := if (actionsOf r).flag then flags ++ [r.rule_name] else flags
    evalRulesLoop txn rest score1 (trig ++ [⟨r.rule_name, r.id, risk⟩]) flags1
  else
    evalRulesLoop txn rest score trig flags

/-- Embeds `RuleEngine.evaluate_transaction` (`app/rules.py` lines 82-118) applied
to an already-loaded list of active rules (priority ordering is done by the
database query in `load_rules`). -/
def evaluate_transaction (rules : List FraudRule) (txn : TxnData) : RuleResult :=
  let res := evalRulesLoop txn rules 0 [] []
  ⟨min res.1 1, res.2.1, res.2.2⟩

/-- The `/transaction` request body (`TransactionRequest`, `app/schemas.py`
lines 7-23). -/
structure TransactionRequest where
  user_id : String
  amount : ℚ
  currency : String
  location : Option String
  merchant_id : Option String
  card_number_hash : Option String
  transaction_type : String
  idempotency_key : String
  metadata : Option (List (String × String))
deriving DecidableEq

/-- The `/transaction` response body (`TransactionResponse`,
`app/schemas.py` lines 26-38); returning one models a 2xx answer. -/
structure TransactionResponse where
  transaction_id : String
  status : String
  is_fraud : Bool
  risk_score : ℚ
  rule_score : ℚ
  ml_score : ℚ
  message : Option String
  created_at : Time
deriving DecidableEq

/-- Embeds `generate_request_hash` (`app/idempotency.py` lines 14-18): SHA-256 of
the key-sorted JSON body.  Field order is immaterial in a record, and the
hash is modelled collision-free, so the normalized-and-hashed body is the
request itself. -/
def generate_request_hash (body : TransactionRequest) : TransactionRequest :=
  body

/-- An `idempotency_keys` row (`app/models.py` lines 106-115).  Rows are
only ever created by `store_idempotency_key`, which always stores a full
response payload. -/
structure IdempotencyRecord where
  idempotency_key : String
  request_hash : TransactionRequest
  response_data : TransactionResponse
  expires_at : Time
deriving DecidableEq

/-- The idempotency state: the Redis cache (key, payload, expiry instant)
and the `idempotency_keys` table. -/
structure Store where
  redis : List (String × TransactionResponse × Time)
  db : List IdempotencyRecord
deriving DecidableEq

/-- Embeds `get_idempotency_response` (`app/redis_cache.py` lines 51-57): a cached
value is visible until its TTL expires. -/
def get_idempotency_response (s : Store) (now : Time) (key : String) :
    Option TransactionResponse :=
  match s.redis.find? (fun e => e.1 == key) with
  | some e => if now < e.2.2 then some e.2.1 else Option.none
  | Option.none => Option.none

/-- Embeds `set_idempotency_response` (`app/redis_cache.py` lines 60-67): `setex`
overwrites the key with the given TTL in seconds. -/
def set_idempotency_response (s : Store) (now : Time) (key : String)
    (resp : TransactionResponse) (ttl : ℚ) : Store :=
  { s with redis := (key, resp, now + ttl) :: s.redis.filter (fun e => !(e.1 == key)) }

/-- Lookup of the unique `idempotency_keys` row for a key. -/
def dbFind (s : Store) (key : String) : Option IdempotencyRecord :=
  s.db.find? (fun r => r.idempotency_key == key)

/-- Outcome of `check_idempotency_key`: `.ok` carries the returned value
(`some` cached response, or `Option.none` for a miss) together with the
store after its side effects; `.conflict` models the raised
`HTTPException(409)`. -/
inductive CheckResult where
| ok (cached : Option TransactionResponse) (s : Store)
| conflict
deriving DecidableEq

/-- Embeds `check_idempotency_key` (`app/idempotency.py` lines 21-64): Redis is
consulted first (without any hash comparison); on a cache miss the table
row is compared by request hash — equal hash and unexpired returns the
stored response (re-caching it with the default 3600 s TTL), equal hash but
expired deletes the row and reports a miss, and a differing hash raises the
409 conflict. -/
def check_idempotency_key (s : Store) (now : Time) (key : String)
    (body : TransactionRequest) : CheckResult :=
  match get_idempotency_response s now key with
  | some cached => .ok (some cached) s
  | Option.none =>
    let request_hash := generate_request_hash body
    match dbFind s key with
    | some rec =>
      if rec.request_hash = request_hash then
        if now < rec.expires_at then
          .ok (some rec.response_data)
            (set_idempotency_response s now key rec.response_data 3600)
        else
          .ok Option.none { s with db := s.db.filter (fun r => !(r.idempotency_key == key)) }
      else .conflict
    | Option.none => .ok Option.none s

/-- Embeds `store_idempotency_key` (`app/idempotency.py` lines 67-89) with the
default `ttl_hours = 24`: inserts the table row (the unique-key constraint
makes the commit fail when a row for the key already exists, modelled by
`.error`), then caches the response for `24 * 3600` seconds. -/
def store_idempotency_key (s : Store) (now : Time) (key : String)
    (body : TransactionRequest) (resp : TransactionResponse) :
    Except Unit Store :=
  if (dbFind s key).isSome then .error ()
  else
    let s1 : Store :=
      { s with db := s.db ++ [⟨key, generate_request_hash body, resp, now + 24 * 3600⟩] }
    .ok (set_idempotency_response s1 now key resp (24 * 3600))

/-- The dependency environment of one `process_transaction` request
(`app/main.py` lines 145-292).  `now` is the locally generated
`datetime.utcnow()`; `freshId` the generated `uuid4`; `idemCheckOk`,
`persistOk` and `storeOk` tell whether the corresponding infrastructure
call succeeds; `rulesOutcome` is the result of loading the active rules
(the engine evaluation itself is pure); `mlOutcome` is the outcome of
`model_scorer.score_transaction` (the user-profile fetch feeds only this
scorer call, so it is absorbed into `mlOutcome`). -/
structure Env where
  txn : TransactionRequest
  store : Store
  now : Time
  freshId : String
  idemCheckOk : Bool
  rulesOutcome : Except Unit (List FraudRule)
  mlOutcome : Except Unit ℚ
  persistOk : Bool
  dbCreatedAt : Time
  storeOk : Bool

/-- The idempotency-check step of `process_transaction` (`app/main.py`
lines 162-170): the call is wrapped in `except Exception`, so an
infrastructure failure — and likewise the deliberately raised 409
conflict — is swallowed and processing continues. -/
def idem_check_result (env : Env) : Option TransactionResponse × Store :=
  if env.idemCheckOk then
    match check_idempotency_key env.store env.now env.txn.idempotency_key env.txn with
    | .ok c s1 => (c, s1)
    | .conflict => (Option.none, env.store)
  else (Option.none, env.store)

/-- The attribute map handed to the rule engine and scorer
(`transaction_data`, `app/main.py` lines 192-199).  The optional fields are
present with value `None` when absent from the request. -/
def transaction_data (t : TransactionRequest) : TxnData :=
  [("amount", TxnValue.num t.amount),
   ("location", match t.location with | some s => TxnValue.str s | Option.none => TxnValue.null),
   ("user_id", TxnValue.str t.user_id),
   ("merchant_id", match t.merchant_id with | some s => TxnValue.str s | Option.none => TxnValue.null),
   ("transaction_type", TxnValue.str t.transaction_type)]

/-- Rule-evaluation step of `process_transaction` (`app/main.py` lines
201-208): the rule-engine call is inside `try/except` and a failure is
replaced by `rule_score = 0.0`. -/
def ruleScoreOf (env : Env) : ℚ :=
  match env.rulesOutcome with
  | .ok rules => (evaluate_transaction rules (transaction_data env.txn)).rule_score
  | .error _ => 0

/-- Fusion, decision and response assembly of `process_transaction`
(`app/main.py` lines 213-261), given the ml score returned by the scorer:
`final = rule*0.4 + ml*0.6`, `is_fraud ⇔ final > 0.7`,
`is_approved ⇔ final < 0.8`; `created_at` is the database row timestamp
when the ledger insert succeeds and the locally generated `utcnow`
otherwise. -/
def buildResponse (env : Env) (ml_score : ℚ) : TransactionResponse :=
  let rule_score := ruleScoreOf env
  let final_risk_score := rule_score * 0.4 + ml_score * 0.6
  let is_approved := decide (final_risk_score < 0.8)
  { transaction_id := env.freshId
    status := if is_approved then "approved" else "declined"
    is_fraud := decide (final_risk_score > 0.7)
    risk_score := final_risk_score
    rule_score := rule_score
    ml_score := ml_score
    message := some (if is_approved then "Transaction processed successfully"
                     else "Transaction declined due to high risk")
    created_at := if env.persistOk then env.dbCreatedAt else env.now }

/-- Idempotency-commit step of `process_transaction` (`app/main.py` lines
263-272): the call is inside `try/except`, so both an infrastructure
failure and the unique-key violation leave the store unchanged. -/
def commitStore (env : Env) (s1 : Store) (resp : TransactionResponse) : Store :=
  if env.storeOk then
    match store_idempotency_key s1 env.now env.txn.idempotency_key env.txn resp with
    | .ok s3 => s3
    | .error _ => s1
  else s1

/-- The idempotency-miss continuation of `process_transaction`
(`app/main.py` lines 172-292): score, decide, persist, commit.  The scorer
call on line 211 is not inside any `try`, so its failure propagates
(`.error`). -/
def score_and_respond (env : Env) (s1 : Store) :
    Except Unit (TransactionResponse × Store) :=
  match env.mlOutcome with
  | .error e => .error e
  | .ok ml_score =>
    .ok (buildResponse env ml_score, commitStore env s1 (buildResponse env ml_score))

/-- Embeds `process_transaction` (`app/main.py` lines 145-292).  `.ok` carries the
2xx response and the resulting idempotency store; `.error` models an
unhandled exception escaping the handler. -/
def process_transaction (env : Env) : Except Unit (TransactionResponse × Store) :=
  match idem_check_result env with
  | (some cached, s1) => .ok (cached, s1)
  | (Option.none, s1) => score_and_respond env s1

/-- Embeds the `FraudModelScorer.score_transaction` normalization (`app/model_scorer.py`
lines 117-126): the Isolation-Forest decision value is mapped through the
sigmoid `1 / (1 + exp(d))`, so a more negative decision value yields a
score closer to 1. -/
noncomputable def scorer_risk_score (decision_score : ℝ) : ℝ :=
  1 / (1 + Real.exp decision_score)

/-! ## Rule-engine lemmas -/

theorem if_gt_eq_max (a b : ℚ) : (if b > a then b else a) = max a b := by
  rcases lt_or_ge a b with h | h
  · rw [if_pos h, max_eq_right h.le]
  · rw [if_neg (not_lt.mpr h), max_eq_left h]

/-- The rules that fire on a transaction. -/
def triggeredOf (rules : List FraudRule) (txn : TxnData) : List FraudRule :=
  rules.filter (fun r => evaluate_conditions r.rule_condition txn)

theorem evalRulesLoop_eq (txn : TxnData) (rules : List FraudRule) (sc : ℚ)
    (tr : List TriggeredRule) (fl : List String) :
    evalRulesLoop txn rules sc tr fl =
      ((triggeredOf rules txn).foldl (fun a r => max a (riskOf r)) sc,
       tr ++ (triggeredOf rules txn).map (fun r => ⟨r.rule_name, r.id, riskOf r⟩),
       fl ++ ((triggeredOf rules txn).filter (fun r => (actionsOf r).flag)).map
          FraudRule.rule_name) := by
  induction rules generalizing sc tr fl with
  | nil => simp [evalRulesLoop, triggeredOf]
  | cons r rest ih =>
    rcases hr : evaluate_conditions r.rule_condition txn with _ | _
    · simp [evalRulesLoop, hr, ih, triggeredOf, List.filter_cons, hr]
    · rcases hf : (actionsOf r).flag with _ | _ <;>
        simp [evalRulesLoop, hr, hf, ih, triggeredOf, List.filter_cons,
          if_gt_eq_max]

theorem foldl_max_assoc (l : List ℚ) (a b : ℚ) :
    l.foldl max (max a b) = max a (l.foldl max b) := by
  induction l generalizing b with
  | nil => simp
  | cons c t ih =>
    simp only [List.foldl_cons, max_assoc]
    exact ih (max b c)

/-- Maximum of a list of risk scores, `0` for the empty list. -/
def maxOfRisks : List ℚ → ℚ
| [] => 0
| h :: t => t.foldl max h

theorem foldl_max_zero (l : List ℚ) : l.foldl max 0 = max 0 (maxOfRisks l) := by
  cases l with
  | nil => simp [maxOfRisks]
  | cons h t =>
    simp only [List.foldl_cons, maxOfRisks]
    rw [show max (0 : ℚ) h = max 0 h from rfl, foldl_max_assoc]

theorem min_one_max_zero (x : ℚ) : min (max 0 x) 1 = max 0 (min x 1) := by
  rcases le_total x 0 with h | h <;> rcases le_total x 1 with h2 | h2 <;>
    simp [min_def, max_def] <;> split_ifs <;> linarith

theorem le_foldl_max (l : List ℚ) (a : ℚ) : a ≤ l.foldl max a := by
  induction l generalizing a with
  | nil => simp
  | cons h t ih => exact le_trans (le_max_left a h) (ih (max a h))

/-- The score, triggered list and flags of `evaluate_transaction`,
characterised over the list of firing rules. -/
theorem evaluate_transaction_eq (rules : List FraudRule) (txn : TxnData) :
    evaluate_transaction rules txn =
      { rule_score :=
          min ((triggeredOf rules txn).foldl (fun a r => max a (riskOf r)) 0) 1,
        triggered_rules :=
          (triggeredOf rules txn).map (fun r => ⟨r.rule_name, r.id, riskOf r⟩),
        flags :=
          ((triggeredOf rules txn).filter (fun r => (actionsOf r).flag)).map
            FraudRule.rule_name } := by
  simp [evaluate_transaction, evalRulesLoop_eq]

theorem rule_score_bounds (rules : List FraudRule) (txn : TxnData) :
    0 ≤ (evaluate_transaction rules txn).rule_score ∧
      (evaluate_transaction rules txn).rule_score ≤ 1 := by
  rw [evaluate_transaction_eq]
  refine ⟨le_min ?_ (by norm_num), min_le_right _ _⟩
  have h := le_foldl_max ((triggeredOf rules txn).map riskOf) 0
  rwa [List.foldl_map] at h

/-- C6: the aggregate rule score is the maximum — not the sum — of the
`risk_score` actions of the triggered rules (`0.5` when unspecified, see
`riskOf`), clamped to `[0,1]`; every triggered rule with `flag = true`
contributes its name to the flags list regardless of its score; and with no
triggered rules the score is `0` (the clamped maximum of the empty list). -/
theorem rule_aggregation_max (rules : List FraudRule) (txn : TxnData) :
    (evaluate_transaction rules txn).rule_score =
        max 0 (min (maxOfRisks
          ((evaluate_transaction rules txn).triggered_rules.map TriggeredRule.risk_score)) 1)
      ∧ (evaluate_transaction rules txn).triggered_rules =
          (triggeredOf rules txn).map (fun r => ⟨r.rule_name, r.id, riskOf r⟩)
      ∧ (evaluate_transaction rules txn).flags =
          ((triggeredOf rules txn).filter (fun r => (actionsOf r).flag)).map
            FraudRule.rule_name
      ∧ ((evaluate_transaction rules txn).triggered_rules = [] →
          (evaluate_transaction rules txn).rule_score = 0) := by
  rw [evaluate_transaction_eq]
  refine ⟨?_, rfl, rfl, ?_⟩
  · have hmap :
        ((triggeredOf rules txn).map (fun r : FraudRule =>
            (⟨r.rule_name, r.id, riskOf r⟩ : TriggeredRule))).map TriggeredRule.risk_score
          = (triggeredOf rules txn).map riskOf := by
      simp [List.map_map, Function.comp]
    simp only [hmap]
    rw [← List.foldl_map, foldl_max_zero, min_one_max_zero]
  · intro h
    have h0 : triggeredOf rules txn = [] := by
      simpa using congrArg List.length h
    simp [h0]

/-- Witness for `rule_aggregation_max`: the empty-rule-set instance, whose
no-triggered-rules hypothesis holds definitionally. -/
theorem rule_aggregation_max_witness :
    (evaluate_transaction [] []).rule_score = 0 :=
  (rule_aggregation_max [] []).2.2.2 rfl

/-! ## Leaf-predicate degradation (C7) -/

/-- True exactly on string transaction values. -/
def TxnValue.isStr : TxnValue → Bool
| .str _ => true
| _ => false

/-- True exactly on string rule values. -/
def RuleValue.isStr : RuleValue → Bool
| .str _ => true
| _ => false

theorem evaluate_condition_no_field (c : Condition) (txn : TxnData)
    (h : lookupField txn c.field = Option.none) :
    evaluate_condition c txn = false := by
  simp [evaluate_condition, h]

theorem evaluate_condition_coerce_fail (f op : String) (v : RuleValue)
    (txn : TxnData) (tv : TxnValue) (hl : lookupField txn f = some tv)
    (hc : coerceValue v tv = Option.none) :
    evaluate_condition ⟨f, op, v⟩ txn = false := by
  simp [evaluate_condition, hl, hc]

theorem evaluate_condition_some (f op : String) (v : RuleValue)
    (txn : TxnData) (tv a : TxnValue) (hl : lookupField txn f = some tv)
    (hc : coerceValue v tv = some a) :
    evaluate_condition ⟨f, op, v⟩ txn = applyOperator op a v := by
  simp [evaluate_condition, hl, hc]

/-- C7 counterexample: the `not_in` operator applied with a non-list
comparison value evaluates to `true` (`app/rules.py` line 51,
`... if isinstance(b, list) else True`), not to `false` as claimed. -/
theorem not_in_nonlist_yields_true :
    evaluate_condition ⟨"amount", "not_in", RuleValue.num 3⟩
      [("amount", TxnValue.num 6000)] = true := by
  decide

/-- C7 amended: leaf-predicate evaluation is total and degrades on
irregular input as follows — a missing field yields `false`; a numeric rule
value against an unparsable string yields `false`; `in` with a non-list
comparison value yields `false`, but `not_in` with a non-list comparison
value yields `true` (vacuous non-membership); an ordering operator over a
type-mismatched pair yields `false`; `contains` with a non-string operand
yields `false`; an unknown operator yields `false`. -/
theorem condition_degradation_amended :
    (∀ (c : Condition) (txn : TxnData), lookupField txn c.field = Option.none →
        evaluate_condition c txn = false)
    ∧ (∀ (f op : String) (q : ℚ) (s : String) (txn : TxnData),
        lookupField txn f = some (TxnValue.str s) → parseFloat s = Option.none →
        evaluate_condition ⟨f, op, RuleValue.num q⟩ txn = false)
    ∧ (∀ (f : String) (v : RuleValue) (txn : TxnData), v.isList = false →
        evaluate_condition ⟨f, "in", v⟩ txn = false)
    ∧ (∀ (f : String) (v : RuleValue) (txn : TxnData) (a b : TxnValue),
        lookupField txn f = some a → coerceValue v a = some b → v.isList = false →
        evaluate_condition ⟨f, "not_in", v⟩ txn = true)
    ∧ (∀ (f op : String) (v : RuleValue) (txn : TxnData) (a b : TxnValue),
        op ∈ ([">", ">=", "<", "<="] : List String) →
        lookupField txn f = some a → coerceValue v a = some b →
        comparable b v = false →
        evaluate_condition ⟨f, op, v⟩ txn = false)
    ∧ (∀ (f : String) (v : RuleValue) (txn : TxnData) (a b : TxnValue),
        lookupField txn f = some a → coerceValue v a = some b →
        (b.isStr = false ∨ v.isStr = false) →
        evaluate_condition ⟨f, "contains", v⟩ txn = false)
    ∧ (∀ (c : Condition) (txn : TxnData),
        c.operator ∉ (["==", "!=", ">", ">=", "<", "<=", "in", "not_in",
          "contains"] : List String) →
        evaluate_condition c txn = false) := by
  refine ⟨?_, ?_, ?_, ?_, ?_, ?_, ?_⟩
  · exact evaluate_condition_no_field
  · intro f op q s txn h1 h2
    exact evaluate_condition_coerce_fail f op _ txn _ h1 (by simp [coerceValue, h2])
  · intro f v txn hv
    cases hl : lookupField txn f with
    | none => exact evaluate_condition_no_field ⟨f, "in", v⟩ txn hl
    | some tv =>
      cases hc : coerceValue v tv with
      | none => exact evaluate_condition_coerce_fail f "in" v txn tv hl hc
      | some a =>
        rw [evaluate_condition_some f "in" v txn tv a hl hc]
        cases v <;> first | rfl | simp [RuleValue.isList] at hv
  · intro f v txn a b h1 h2 hv
    rw [evaluate_condition_some f "not_in" v txn a b h1 h2]
    cases v <;> first | rfl | simp [RuleValue.isList] at hv
  · intro f op v txn a b hop h1 h2 hcmp
    simp only [List.mem_cons, List.not_mem_nil, or_false] at hop
    rcases hop with rfl | rfl | rfl | rfl
    · rw [evaluate_condition_some f ">" v txn a b h1 h2]
      cases b <;> cases v <;> first | rfl | simp [comparable] at hcmp
    · rw [evaluate_condition_some f ">=" v txn a b h1 h2]
      cases b <;> cases v <;> first | rfl | simp [comparable] at hcmp
    · rw [evaluate_condition_some f "<" v txn a b h1 h2]
      cases b <;> cases v <;> first | rfl | simp [comparable] at hcmp
    · rw [evaluate_condition_some f "<=" v txn a b h1 h2]
      cases b <;> cases v <;> first | rfl | simp [comparable] at hcmp
  · intro f v txn a b h1 h2 hstr
    rw [evaluate_condition_some f "contains" v txn a b h1 h2]
    show pyContains b v = false
    cases b <;> cases v <;>
      first
        | rfl
        | (rcases hstr with h | h <;> simp [TxnValue.isStr, RuleValue.isStr] at h)
  · intro c txn hop
    simp only [List.mem_cons, List.not_mem_nil, or_false, not_or] at hop
    obtain ⟨h1, h2, h3, h4, h5, h6, h7, h8, h9⟩ := hop
    obtain ⟨f, op, v⟩ := c
    simp only at h1 h2 h3 h4 h5 h6 h7 h8 h9
    cases hl : lookupField txn f with
    | none => exact evaluate_condition_no_field ⟨f, op, v⟩ txn hl
    | some tv =>
      cases hc : coerceValue v tv with
      | none => exact evaluate_condition_coerce_fail f op v txn tv hl hc
      | some a =>
        rw [evaluate_condition_some f op v txn tv a hl hc]
        unfold applyOperator
        rw [if_neg h1, if_neg h2, if_neg h3, if_neg h4, if_neg h5, if_neg h6,
          if_neg h7, if_neg h8, if_neg h9]

/-- Witness for `condition_degradation_amended`: each degradation case at a
concrete input. -/
theorem condition_degradation_witness :
    evaluate_condition ⟨"missing", "==", RuleValue.num 1⟩ [] = false
    ∧ evaluate_condition ⟨"amount", ">", RuleValue.num 5⟩
        [("amount", TxnValue.str "abc")] = false
    ∧ evaluate_condition ⟨"amount", "in", RuleValue.num 5⟩
        [("amount", TxnValue.num 7)] = false
    ∧ evaluate_condition ⟨"amount", "not_in", RuleValue.num 5⟩
        [("amount", TxnValue.num 7)] = true
    ∧ evaluate_condition ⟨"amount", ">", RuleValue.str "x"⟩
        [("amount", TxnValue.num 7)] = false
    ∧ evaluate_condition ⟨"amount", "contains", RuleValue.str "x"⟩
        [("amount", TxnValue.num 7)] = false
    ∧ evaluate_condition ⟨"amount", "between", RuleValue.num 5⟩
        [("amount", TxnValue.num 7)] = false :=
  ⟨condition_degradation_amended.1 ⟨"missing", "==", RuleValue.num 1⟩ [] (by decide),
   condition_degradation_amended.2.1 "amount" ">" 5 "abc"
     [("amount", TxnValue.str "abc")] (by decide) (by decide),
   condition_degradation_amended.2.2.1 "amount" (RuleValue.num 5)
     [("amount", TxnValue.num 7)] (by decide),
   condition_degradation_amended.2.2.2.1 "amount" (RuleValue.num 5)
     [("amount", TxnValue.num 7)] (TxnValue.num 7) (TxnValue.num 7)
     (by decide) (by decide) (by decide),
   condition_degradation_amended.2.2.2.2.1 "amount" ">" (RuleValue.str "x")
     [("amount", TxnValue.num 7)] (TxnValue.num 7) (TxnValue.num 7)
     (by decide) (by decide) (by decide) (by decide),
   condition_degradation_amended.2.2.2.2.2.1 "amount" (RuleValue.str "x")
     [("amount", TxnValue.num 7)] (TxnValue.num 7) (TxnValue.num 7)
     (by decide) (by decide) (Or.inl (by decide)),
   condition_degradation_amended.2.2.2.2.2.2 ⟨"amount", "between", RuleValue.num 5⟩
     [("amount", TxnValue.num 7)] (by decide)⟩

/-! ## Attribute set handed to the rule engine (C10) -/

/-- A sample valid transaction request, used to instantiate witnesses. -/
def sampleRequest : TransactionRequest :=
  { user_id := "user123", amount := 100, currency := "USD",
    location := some "NYC", merchant_id := Option.none,
    card_number_hash := Option.none, transaction_type := "purchase",
    idempotency_key := "key-1", metadata := Option.none }

/-- C10: the attribute map built by the orchestrator carries exactly the
five keys `amount`, `location`, `user_id`, `merchant_id`,
`transaction_type`; a leaf predicate over any of the other documented
request fields (`currency`, `card_number_hash`, `idempotency_key`,
`metadata`) evaluates to `false`, and a rule whose condition is such a leaf
never triggers: removing it from the rule list leaves the evaluation result
unchanged. -/
theorem transaction_data_fields :
    (∀ t : TransactionRequest,
      (transaction_data t).map Prod.fst =
        ["amount", "location", "user_id", "merchant_id", "transaction_type"])
    ∧ (∀ (t : TransactionRequest) (f op : String) (v : RuleValue),
        f ∈ (["currency", "card_number_hash", "idempotency_key",
          "metadata"] : List String) →
        evaluate_condition ⟨f, op, v⟩ (transaction_data t) = false)
    ∧ (∀ (t : TransactionRequest) (f op : String) (v : RuleValue)
        (i : ℤ) (nm : String) (acts : Option RuleActions)
        (pre post : List FraudRule),
        f ∈ (["currency", "card_number_hash", "idempotency_key",
          "metadata"] : List String) →
        evaluate_transaction
            (pre ++ ⟨i, nm, RuleCondition.leaf ⟨f, op, v⟩, acts⟩ :: post)
            (transaction_data t)
          = evaluate_transaction (pre ++ post) (transaction_data t)) := by
  have hbad : ∀ (t : TransactionRequest) (f op : String) (v : RuleValue),
      f ∈ (["currency", "card_number_hash", "idempotency_key",
        "metadata"] : List String) →
      evaluate_condition ⟨f, op, v⟩ (transaction_data t) = false := by
    intro t f op v hf
    simp only [List.mem_cons, List.not_mem_nil, or_false] at hf
    rcases hf with rfl | rfl | rfl | rfl <;>
      exact evaluate_condition_no_field _ _ rfl
  refine ⟨fun t => rfl, hbad, ?_⟩
  intro t f op v i nm acts pre post hf
  have hr : evaluate_conditions
      (RuleCondition.leaf ⟨f, op, v⟩) (transaction_data t) = false :=
    hbad t f op v hf
  have ht : triggeredOf (pre ++ ⟨i, nm, RuleCondition.leaf ⟨f, op, v⟩, acts⟩ :: post)
      (transaction_data t) = triggeredOf (pre ++ post) (transaction_data t) := by
    simp [triggeredOf, List.filter_append, List.filter_cons, hr]
  rw [evaluate_transaction_eq, evaluate_transaction_eq, ht]

/-- Witness for `transaction_data_fields`: a `currency` predicate is false
and a `metadata`-keyed rule changes nothing, on a concrete request. -/
theorem transaction_data_fields_witness :
    evaluate_condition ⟨"currency", "==", RuleValue.str "USD"⟩
      (transaction_data sampleRequest) = false
    ∧ evaluate_transaction
        ([] ++ ⟨1, "dead-rule", RuleCondition.leaf ⟨"metadata", "==", RuleValue.null⟩,
          Option.none⟩ :: []) (transaction_data sampleRequest)
      = evaluate_transaction ([] ++ []) (transaction_data sampleRequest) :=
  ⟨transaction_data_fields.2.1 sampleRequest "currency" "==" (RuleValue.str "USD")
      (by decide),
   transaction_data_fields.2.2 sampleRequest "metadata" "==" RuleValue.null 1
      "dead-rule" Option.none [] [] (by decide)⟩

/-! ## Pipeline lemmas -/

theorem process_transaction_hit (env : Env) (c : TransactionResponse) (s1 : Store)
    (h : idem_check_result env = (some c, s1)) :
    process_transaction env = .ok (c, s1) := by
  simp [process_transaction, h]

theorem process_transaction_miss (env : Env) (s1 : Store)
    (h : idem_check_result env = (Option.none, s1)) :
    process_transaction env = score_and_respond env s1 := by
  simp [process_transaction, h]

theorem score_and_respond_ml_error (env : Env) (s1 : Store)
    (h : env.mlOutcome = .error ()) :
    score_and_respond env s1 = .error () := by
  simp [score_and_respond, h]

theorem score_and_respond_ml_ok (env : Env) (s1 : Store) (m : ℚ)
    (h : env.mlOutcome = .ok m) :
    score_and_respond env s1 =
      .ok (buildResponse env m, commitStore env s1 (buildResponse env m)) := by
  simp [score_and_respond, h]

theorem ruleScoreOf_bounds (env : Env) :
    0 ≤ ruleScoreOf env ∧ ruleScoreOf env ≤ 1 := by
  unfold ruleScoreOf
  cases env.rulesOutcome with
  | ok rules => exact rule_score_bounds rules (transaction_data env.txn)
  | error e => norm_num

/-! ## Decision fusion and bounds (C4) -/

/-- C4: the model score is a sigmoid and lies in `[0,1]`; on an
idempotency miss the returned final risk score is
`rule_score * 0.4 + ml_score * 0.6`, and the rule, model and final scores
each lie in `[0,1]` (the ml-score bound transfers to its rational image via
the two bound hypotheses). -/
theorem final_score_fusion_bounds :
    (∀ d : ℝ, 0 ≤ scorer_risk_score d ∧ scorer_risk_score d ≤ 1)
    ∧ (∀ (env : Env) (m : ℚ) (resp : TransactionResponse) (s1 s2 : Store),
        idem_check_result env = (Option.none, s1) →
        env.mlOutcome = .ok m → 0 ≤ m → m ≤ 1 →
        process_transaction env = .ok (resp, s2) →
        resp.risk_score = resp.rule_score * 0.4 + resp.ml_score * 0.6
        ∧ 0 ≤ resp.rule_score ∧ resp.rule_score ≤ 1
        ∧ 0 ≤ resp.ml_score ∧ resp.ml_score ≤ 1
        ∧ 0 ≤ resp.risk_score ∧ resp.risk_score ≤ 1) := by
  constructor
  · intro d
    have hexp := Real.exp_pos d
    unfold scorer_risk_score
    constructor
    · positivity
    · rw [div_le_one (by linarith)]
      linarith
  · intro env m resp s1 s2 hmiss hml hm0 hm1 hproc
    rw [process_transaction_miss env s1 hmiss, score_and_respond_ml_ok env s1 m hml] at hproc
    obtain ⟨hresp, -⟩ := Prod.mk.injEq .. ▸ Except.ok.inj hproc
    subst hresp
    obtain ⟨hr0, hr1⟩ := ruleScoreOf_bounds env
    refine ⟨rfl, hr0, hr1, hm0, hm1, ?_, ?_⟩
    · show 0 ≤ ruleScoreOf env * 0.4 + m * 0.6
      have h1 : 0 ≤ ruleScoreOf env * 0.4 := by positivity
      have h2 : 0 ≤ m * 0.6 := by positivity
      linarith
    · show ruleScoreOf env * 0.4 + m * 0.6 ≤ 1
      have h1 : ruleScoreOf env * 0.4 ≤ 1 * 0.4 :=
        mul_le_mul_of_nonneg_right hr1 (by norm_num)
      have h2 : m * 0.6 ≤ 1 * 0.6 :=
        mul_le_mul_of_nonneg_right hm1 (by norm_num)
      linarith

/-- Environment of a fresh, fully available request with a given rule set
and ml score, used to instantiate witnesses. -/
def freshEnv (rules : List FraudRule) (m : ℚ) : Env :=
  { txn := sampleRequest, store := ⟨[], []⟩, now := 0, freshId := "tid-1",
    idemCheckOk := true, rulesOutcome := .ok rules, mlOutcome := .ok m,
    persistOk := true, dbCreatedAt := 7, storeOk := false }

/-- Witness for `final_score_fusion_bounds` at a concrete environment with
ml score `1/2` and no rules. -/
theorem final_score_fusion_bounds_witness :
    (buildResponse (freshEnv [] (1/2)) (1/2)).risk_score =
        (buildResponse (freshEnv [] (1/2)) (1/2)).rule_score * 0.4 +
          (buildResponse (freshEnv [] (1/2)) (1/2)).ml_score * 0.6
    ∧ 0 ≤ (buildResponse (freshEnv [] (1/2)) (1/2)).rule_score
    ∧ (buildResponse (freshEnv [] (1/2)) (1/2)).rule_score ≤ 1
    ∧ 0 ≤ (buildResponse (freshEnv [] (1/2)) (1/2)).ml_score
    ∧ (buildResponse (freshEnv [] (1/2)) (1/2)).ml_score ≤ 1
    ∧ 0 ≤ (buildResponse (freshEnv [] (1/2)) (1/2)).risk_score
    ∧ (buildResponse (freshEnv [] (1/2)) (1/2)).risk_score ≤ 1 :=
  final_score_fusion_bounds.2 (freshEnv [] (1/2)) (1/2)
    (buildResponse (freshEnv [] (1/2)) (1/2))
    ⟨[], []⟩ (commitStore (freshEnv [] (1/2)) ⟨[], []⟩ (buildResponse (freshEnv [] (1/2)) (1/2)))
    rfl rfl (by norm_num) (by norm_num) rfl

/-! ## Decision thresholds (C5) -/

/-- A rule firing on every positive amount with the given risk score. -/
def bandRule (q : ℚ) : FraudRule :=
  ⟨1, "band", RuleCondition.leaf ⟨"amount", ">", RuleValue.num 0⟩,
    some ⟨some q, false⟩⟩

theorem bandRule_fires (q : ℚ) :
    evaluate_conditions (bandRule q).rule_condition
      (transaction_data sampleRequest) = true := by
  show evaluate_condition ⟨"amount", ">", RuleValue.num 0⟩
    (transaction_data sampleRequest) = true
  rw [evaluate_condition_some "amount" ">" (RuleValue.num 0)
    (transaction_data sampleRequest) (TxnValue.num 100) (TxnValue.num 100) rfl rfl]
  show (pyGt (TxnValue.num 100) (RuleValue.num 0)).getD false = true
  simp only [pyGt, Option.getD_some, decide_eq_true_eq]
  norm_num

theorem bandRule_score (q : ℚ) (h0 : 0 ≤ q) (h1 : q ≤ 1) :
    ruleScoreOf (freshEnv [bandRule q] q) = q := by
  show (evaluate_transaction [bandRule q] (transaction_data sampleRequest)).rule_score = q
  rw [evaluate_transaction_eq]
  show min (List.foldl (fun a r => max a (riskOf r)) 0
    (triggeredOf [bandRule q] (transaction_data sampleRequest))) 1 = q
  rw [show triggeredOf [bandRule q] (transaction_data sampleRequest) = [bandRule q] from by
    simp [triggeredOf, List.filter, bandRule_fires q]]
  simp only [List.foldl]
  rw [show riskOf (bandRule q) = q from rfl, max_eq_right h0, min_eq_left h1]

/-- C5: on a scored (idempotency-miss) request, the fraud flag holds
exactly when the final score exceeds `0.7` and the response is approved
exactly when it is below `0.8`; with rule score and ml score both `q` the
final score is exactly `q`, giving the three decision bands
`0.75 ⇒ (fraud, approved)`, `0.9 ⇒ (fraud, declined)`,
`0.5 ⇒ (no fraud, approved)`. -/
theorem decision_thresholds :
    (∀ (env : Env) (resp : TransactionResponse) (s1 s2 : Store),
        idem_check_result env = (Option.none, s1) →
        process_transaction env = .ok (resp, s2) →
        (resp.is_fraud = true ↔ resp.risk_score > 0.7)
        ∧ (resp.status = "approved" ↔ resp.risk_score < 0.8))
    ∧ (process_transaction (freshEnv [bandRule 0.75] 0.75)).map
        (fun p => (p.1.is_fraud, p.1.status)) = .ok (true, "approved")
    ∧ (process_transaction (freshEnv [bandRule 0.9] 0.9)).map
        (fun p => (p.1.is_fraud, p.1.status)) = .ok (true, "declined")
    ∧ (process_transaction (freshEnv [bandRule 0.5] 0.5)).map
        (fun p => (p.1.is_fraud, p.1.status)) = .ok (false, "approved") := by
  refine ⟨?_, ?_, ?_, ?_⟩
  case refine_2 =>
    rw [process_transaction_miss (freshEnv [bandRule 0.75] 0.75) ⟨[], []⟩ rfl,
        score_and_respond_ml_ok (freshEnv [bandRule 0.75] 0.75) ⟨[], []⟩ 0.75 rfl]
    simp only [Except.map, buildResponse,
      bandRule_score 0.75 (by norm_num) (by norm_num)]
    rw [show (0.75 : ℚ) * 0.4 + 0.75 * 0.6 = 0.75 from by norm_num,
        if_pos (decide_eq_true (show (0.75 : ℚ) < 0.8 from by norm_num)),
        show decide ((0.75 : ℚ) > 0.7) = true from decide_eq_true (by norm_num)]
  case refine_3 =>
    rw [process_transaction_miss (freshEnv [bandRule 0.9] 0.9) ⟨[], []⟩ rfl,
        score_and_respond_ml_ok (freshEnv [bandRule 0.9] 0.9) ⟨[], []⟩ 0.9 rfl]
    simp only [Except.map, buildResponse,
      bandRule_score 0.9 (by norm_num) (by norm_num)]
    rw [show (0.9 : ℚ) * 0.4 + 0.9 * 0.6 = 0.9 from by norm_num,
        if_neg (show ¬(decide ((0.9 : ℚ) < 0.8) = true) from fun h =>
          absurd (of_decide_eq_true h) (by norm_num)),
        show decide ((0.9 : ℚ) > 0.7) = true from decide_eq_true (by norm_num)]
  case refine_4 =>
    rw [process_transaction_miss (freshEnv [bandRule 0.5] 0.5) ⟨[], []⟩ rfl,
        score_and_respond_ml_ok (freshEnv [bandRule 0.5] 0.5) ⟨[], []⟩ 0.5 rfl]
    simp only [Except.map, buildResponse,
      bandRule_score 0.5 (by norm_num) (by norm_num)]
    rw [show (0.5 : ℚ) * 0.4 + 0.5 * 0.6 = 0.5 from by norm_num,
        if_pos (decide_eq_true (show (0.5 : ℚ) < 0.8 from by norm_num)),
        show decide ((0.5 : ℚ) > 0.7) = false from decide_eq_false (by norm_num)]
  intro env resp s1 s2 hmiss hproc
  rw [process_transaction_miss env s1 hmiss] at hproc
  cases hml : env.mlOutcome with
  | error e =>
    cases e
    rw [score_and_respond_ml_error env s1 hml] at hproc
    cases hproc
  | ok m =>
    rw [score_and_respond_ml_ok env s1 m hml] at hproc
    obtain ⟨hresp, -⟩ := Prod.mk.injEq .. ▸ Except.ok.inj hproc
    subst hresp
    constructor
    · show decide (ruleScoreOf env * 0.4 + m * 0.6 > 0.7) = true ↔
        ruleScoreOf env * 0.4 + m * 0.6 > 0.7
      exact ⟨of_decide_eq_true, decide_eq_true⟩
    · show (if decide (ruleScoreOf env * 0.4 + m * 0.6 < 0.8) = true
          then "approved" else "declined") = "approved" ↔
        ruleScoreOf env * 0.4 + m * 0.6 < 0.8
      by_cases hC : ruleScoreOf env * 0.4 + m * 0.6 < 0.8
      · rw [if_pos (decide_eq_true hC)]
        exact ⟨fun _ => hC, fun _ => rfl⟩
      · rw [if_neg (fun h => hC (of_decide_eq_true h))]
        exact ⟨fun h => absurd h (by decide), fun h => absurd h hC⟩

/-- Witness for `decision_thresholds`: the general threshold equivalences
at the concrete `0.5`-band environment. -/
theorem decision_thresholds_witness :
    ((buildResponse (freshEnv [bandRule 0.5] 0.5) 0.5).is_fraud = true ↔
        (buildResponse (freshEnv [bandRule 0.5] 0.5) 0.5).risk_score > 0.7)
    ∧ ((buildResponse (freshEnv [bandRule 0.5] 0.5) 0.5).status = "approved" ↔
        (buildResponse (freshEnv [bandRule 0.5] 0.5) 0.5).risk_score < 0.8) :=
  decision_thresholds.1 (freshEnv [bandRule 0.5] 0.5)
    (buildResponse (freshEnv [bandRule 0.5] 0.5) 0.5) ⟨[], []⟩
    (commitStore (freshEnv [bandRule 0.5] 0.5) ⟨[], []⟩
      (buildResponse (freshEnv [bandRule 0.5] 0.5) 0.5))
    rfl rfl

/-! ## Degradation policy (C3, C9) -/

/-- A fresh request whose scorer call raises. -/
def envScorerDown : Env :=
  { txn := sampleRequest, store := ⟨[], []⟩, now := 0, freshId := "tid-e",
    idemCheckOk := true, rulesOutcome := .ok [], mlOutcome := .error (),
    persistOk := true, dbCreatedAt := 7, storeOk := true }

/-- C3 counterexample: with the anomaly scorer raising, `process_transaction`
aborts with an unhandled error instead of substituting a neutral `0.0`
model score and producing a decision — the scorer call (`app/main.py` line
211) is outside every `try` block. -/
theorem scorer_failure_aborts_cex :
    process_transaction envScorerDown = Except.error () := rfl

/-- A fresh request whose rule-engine load raises but whose scorer works. -/
def envRulesDown : Env :=
  { txn := sampleRequest, store := ⟨[], []⟩, now := 0, freshId := "tid-r",
    idemCheckOk := true, rulesOutcome := .error (), mlOutcome := .ok (1/2),
    persistOk := true, dbCreatedAt := 7, storeOk := false }

/-- C3 amended: on an idempotency miss, a scorer failure propagates out of
`process_transaction` and aborts the request; the neutral-default
substitution exists only for the rule engine, whose failure yields
`rule_score = 0` while the pipeline continues to a decision. -/
theorem degradation_policy_amended :
    (∀ (env : Env) (s1 : Store),
        idem_check_result env = (Option.none, s1) →
        env.mlOutcome = .error () →
        process_transaction env = .error ())
    ∧ (∀ (env : Env) (m : ℚ) (resp : TransactionResponse) (s1 s2 : Store),
        idem_check_result env = (Option.none, s1) →
        env.rulesOutcome = .error () →
        env.mlOutcome = .ok m →
        process_transaction env = .ok (resp, s2) →
        resp.rule_score = 0 ∧ resp.risk_score = 0 * 0.4 + m * 0.6) := by
  constructor
  · intro env s1 hmiss hml
    rw [process_transaction_miss env s1 hmiss, score_and_respond_ml_error env s1 hml]
  · intro env m resp s1 s2 hmiss hrules hml hproc
    rw [process_transaction_miss env s1 hmiss, score_and_respond_ml_ok env s1 m hml] at hproc
    obtain ⟨hresp, -⟩ := Prod.mk.injEq .. ▸ Except.ok.inj hproc
    subst hresp
    have hrs : ruleScoreOf env = 0 := by simp [ruleScoreOf, hrules]
    exact ⟨hrs, by show ruleScoreOf env * 0.4 + m * 0.6 = 0 * 0.4 + m * 0.6; rw [hrs]⟩

/-- Witness for `degradation_policy_amended`: the scorer-down environment
aborts; the rules-down environment continues with rule score `0`. -/
theorem degradation_policy_witness :
    process_transaction envScorerDown = Except.error ()
    ∧ (buildResponse envRulesDown (1/2)).rule_score = 0
    ∧ (buildResponse envRulesDown (1/2)).risk_score = 0 * 0.4 + (1/2) * 0.6 :=
  ⟨degradation_policy_amended.1 envScorerDown ⟨[], []⟩ rfl rfl,
   (degradation_policy_amended.2 envRulesDown (1/2) (buildResponse envRulesDown (1/2))
      ⟨[], []⟩ (commitStore envRulesDown ⟨[], []⟩ (buildResponse envRulesDown (1/2)))
      rfl rfl rfl rfl).1,
   (degradation_policy_amended.2 envRulesDown (1/2) (buildResponse envRulesDown (1/2))
      ⟨[], []⟩ (commitStore envRulesDown ⟨[], []⟩ (buildResponse envRulesDown (1/2)))
      rfl rfl rfl rfl).2⟩

/-- The response delivered to the caller, when one is. -/
def respOf : Except Unit (TransactionResponse × Store) → Option TransactionResponse
| .ok p => some p.1
| .error _ => Option.none

/-- C9: on an idempotency miss with a working scorer, an unavailable
durable store during persistence still yields a 2xx decision response, and
its creation timestamp is the locally generated `utcnow` of the request
(`app/main.py` lines 247-249). -/
theorem persistence_failure_still_responds
    (env : Env) (m : ℚ) (s1 : Store)
    (hmiss : idem_check_result env = (Option.none, s1))
    (hml : env.mlOutcome = .ok m)
    (hpersist : env.persistOk = false) :
    (respOf (process_transaction env)).map TransactionResponse.created_at
      = some env.now := by
  rw [process_transaction_miss env s1 hmiss, score_and_respond_ml_ok env s1 m hml]
  show some (if env.persistOk then env.dbCreatedAt else env.now) = some env.now
  rw [hpersist, if_neg (by simp)]

/-- A fresh request whose ledger insert fails. -/
def envPersistDown : Env :=
  { txn := sampleRequest, store := ⟨[], []⟩, now := 11, freshId := "tid-p",
    idemCheckOk := true, rulesOutcome := .ok [], mlOutcome := .ok (1/2),
    persistOk := false, dbCreatedAt := 7, storeOk := false }

/-- Witness for `persistence_failure_still_responds` at a concrete
environment. -/
theorem persistence_failure_witness :
    (respOf (process_transaction envPersistDown)).map TransactionResponse.created_at
      = some envPersistDown.now :=
  persistence_failure_still_responds envPersistDown (1/2) ⟨[], []⟩ rfl rfl rfl

/-! ## Idempotency lemmas -/

theorem dbFind_filter_out (s : Store) (key : String) :
    dbFind { s with db := s.db.filter (fun r => !(r.idempotency_key == key)) } key
      = Option.none := by
  show (s.db.filter (fun r => !(r.idempotency_key == key))).find?
    (fun r => r.idempotency_key == key) = Option.none
  rw [List.find?_eq_none]
  intro x hx
  have h2 := (List.mem_filter.mp hx).2
  simp only [Bool.not_eq_eq_eq_not, Bool.not_true, beq_eq_false_iff_ne] at h2
  simp [h2]

theorem check_miss_dbFind (s : Store) (now : Time) (key : String)
    (body : TransactionRequest) (s1 : Store)
    (h : check_idempotency_key s now key body = CheckResult.ok Option.none s1) :
    dbFind s1 key = Option.none := by
  unfold check_idempotency_key at h
  cases hg : get_idempotency_response s now key with
  | some c =>
    simp only [hg] at h
    injection h with h1 h2
    exact Option.noConfusion h1
  | none =>
    simp only [hg] at h
    cases hdb : dbFind s key with
    | none =>
      simp only [hdb, CheckResult.ok.injEq] at h
      rw [← h.2]
      exact hdb
    | some rec =>
      simp only [hdb] at h
      by_cases hh : rec.request_hash = generate_request_hash body
      · rw [if_pos hh] at h
        by_cases he : now < rec.expires_at
        · rw [if_pos he] at h
          simp at h
        · rw [if_neg he] at h
          simp only [CheckResult.ok.injEq] at h
          rw [← h.2]
          exact dbFind_filter_out s key
      · rw [if_neg hh] at h
        simp at h

/-! ## Expired records (C8) -/

/-- A request body differing from `sampleRequest` only in the amount. -/
def reqB : TransactionRequest := { sampleRequest with amount := 200 }

/-- The response cached for the first processing of `sampleRequest`. -/
def respFirst : TransactionResponse :=
  ⟨"tid-1", "approved", false, 0, 0, 0, Option.none, 0⟩

/-- An `idempotency_keys` row for `sampleRequest` that expired at `t = 10`. -/
def recStale : IdempotencyRecord :=
  ⟨"key-1", generate_request_hash sampleRequest, respFirst, 10⟩

/-- A store holding only the stale row, with a cold cache. -/
def storeStale : Store := ⟨[], [recStale]⟩

/-- C8 counterexample: at `t = 20` the row `recStale` is expired, yet a
request with a differing body hash resolves to Conflict, not to a Miss —
the expiry check (`app/idempotency.py` line 48) sits inside the hash-match
branch. -/
theorem expired_mismatch_conflict_cex :
    recStale.expires_at ≤ 20
    ∧ recStale.request_hash ≠ generate_request_hash reqB
    ∧ check_idempotency_key storeStale 20 "key-1" reqB = CheckResult.conflict := by
  refine ⟨by decide, by decide, rfl⟩

/-- C8 amended: an expired record is treated as a Miss — and its row is
removed — only when the hash of the new request matches the stored hash;
when the hashes differ the key resolves to Conflict regardless of expiry. -/
theorem expired_record_amended :
    (∀ (s : Store) (now : Time) (key : String) (body : TransactionRequest)
        (rec : IdempotencyRecord),
        get_idempotency_response s now key = Option.none →
        dbFind s key = some rec →
        rec.request_hash = generate_request_hash body →
        rec.expires_at ≤ now →
        check_idempotency_key s now key body =
          CheckResult.ok Option.none
            { s with db := s.db.filter (fun r => !(r.idempotency_key == key)) }
        ∧ dbFind { s with db := s.db.filter (fun r => !(r.idempotency_key == key)) } key
            = Option.none)
    ∧ (∀ (s : Store) (now : Time) (key : String) (body : TransactionRequest)
        (rec : IdempotencyRecord),
        get_idempotency_response s now key = Option.none →
        dbFind s key = some rec →
        rec.request_hash ≠ generate_request_hash body →
        check_idempotency_key s now key body = CheckResult.conflict) := by
  constructor
  · intro s now key body rec hg hdb hh hexp
    constructor
    · unfold check_idempotency_key
      simp only [hg, hdb]
      rw [if_pos hh, if_neg (not_lt.mpr hexp)]
    · exact dbFind_filter_out s key
  · intro s now key body rec hg hdb hh
    unfold check_idempotency_key
    simp only [hg, hdb]
    rw [if_neg hh]

/-- Witness for `expired_record_amended`: the stale store at `t = 20`, with
a matching body (Miss and removal) and a differing body (Conflict). -/
theorem expired_record_witness :
    (check_idempotency_key storeStale 20 "key-1" sampleRequest =
        CheckResult.ok Option.none
          { storeStale with
            db := storeStale.db.filter (fun r => !(r.idempotency_key == "key-1")) }
      ∧ dbFind { storeStale with
            db := storeStale.db.filter (fun r => !(r.idempotency_key == "key-1")) }
          "key-1" = Option.none)
    ∧ check_idempotency_key storeStale 20 "key-1" reqB = CheckResult.conflict :=
  ⟨expired_record_amended.1 storeStale 20 "key-1" sampleRequest recStale
      rfl rfl rfl (by decide),
   expired_record_amended.2 storeStale 20 "key-1" reqB recStale
      rfl rfl (by decide)⟩

/-! ## Idempotent replay (C2) -/

/-- C2: if a first request was processed fresh (a genuine Miss) and its
result committed (`storeOk`), then a second submission of the identical
body under the same key, arriving before the 24-hour TTL elapses, returns
exactly the first response — in particular the identical transaction id and
the identical rule, model and final scores — and leaves the store
unchanged. -/
theorem idempotent_replay
    (env1 env2 : Env) (resp1 : TransactionResponse) (store1 s1 : Store)
    (h1ok : env1.idemCheckOk = true)
    (hcheck : check_idempotency_key env1.store env1.now env1.txn.idempotency_key env1.txn
      = CheckResult.ok Option.none s1)
    (hstore : env1.storeOk = true)
    (hproc1 : process_transaction env1 = .ok (resp1, store1))
    (htxn : env2.txn = env1.txn)
    (hstore2 : env2.store = store1)
    (h2ok : env2.idemCheckOk = true)
    (hfresh : env2.now < env1.now + 24 * 3600) :
    process_transaction env2 = .ok (resp1, store1) := by
  have hmiss1 : idem_check_result env1 = (Option.none, s1) := by
    simp [idem_check_result, h1ok, hcheck]
  rw [process_transaction_miss env1 s1 hmiss1] at hproc1
  cases hml : env1.mlOutcome with
  | error e =>
    cases e
    rw [score_and_respond_ml_error env1 s1 hml] at hproc1
    cases hproc1
  | ok m =>
    rw [score_and_respond_ml_ok env1 s1 m hml] at hproc1
    obtain ⟨hresp, hst1⟩ := Prod.mk.injEq .. ▸ Except.ok.inj hproc1
    have hdb1 : dbFind s1 env1.txn.idempotency_key = Option.none :=
      check_miss_dbFind env1.store env1.now env1.txn.idempotency_key env1.txn s1 hcheck
    have hcommit : store1 =
        set_idempotency_response
          { s1 with db := s1.db ++ [⟨env1.txn.idempotency_key,
              generate_request_hash env1.txn, resp1, env1.now + 24 * 3600⟩] }
          env1.now env1.txn.idempotency_key resp1 (24 * 3600) := by
      rw [← hst1, hresp]
      simp [commitStore, hstore, store_idempotency_key, hdb1]
    have hget : get_idempotency_response store1 env2.now env1.txn.idempotency_key
        = some resp1 := by
      rw [hcommit]
      unfold get_idempotency_response set_idempotency_response
      rw [List.find?_cons_of_pos _ (by simp)]
      simp only []
      rw [if_pos hfresh]
    have hhit2 : idem_check_result env2 = (some resp1, store1) := by
      unfold idem_check_result
      rw [h2ok, if_pos rfl, htxn, hstore2]
      unfold check_idempotency_key
      rw [hget]
    exact process_transaction_hit env2 resp1 store1 hhit2

/-- First call of the replay witness: everything available, empty store. -/
def env1W : Env :=
  { txn := sampleRequest, store := ⟨[], []⟩, now := 0, freshId := "tid-1",
    idemCheckOk := true, rulesOutcome := .ok [], mlOutcome := .ok (1/2),
    persistOk := true, dbCreatedAt := 7, storeOk := true }

/-- The response of the first call of the replay witness. -/
def resp1W : TransactionResponse := buildResponse env1W (1/2)

/-- The committed store after the first call of the replay witness. -/
def store1W : Store := commitStore env1W ⟨[], []⟩ resp1W

/-- Second call of the replay witness: same body and key, one hundred
seconds later. -/
def env2W : Env := { env1W with store := store1W, now := 100, freshId := "tid-2" }

/-- Witness for `idempotent_replay` at the concrete two-call scenario. -/
theorem idempotent_replay_witness :
    process_transaction env2W = .ok (resp1W, store1W) :=
  idempotent_replay env1W env2W resp1W store1W ⟨[], []⟩ rfl rfl rfl rfl rfl rfl rfl
    (show (100 : ℚ) < 0 + 24 * 3600 from by norm_num)

/-! ## Conflict handling at the HTTP boundary (C1) -/

/-- The store after committing the response to `sampleRequest` under
`key-1` at `t = 0` (warm cache and table row, both expiring at
`t = 86400`). -/
def storeWarm : Store :=
  { redis := [("key-1", respFirst, 86400)],
    db := [⟨"key-1", generate_request_hash sampleRequest, respFirst, 86400⟩] }

/-- The same committed state after the cache entry was evicted. -/
def storeCold : Store :=
  { redis := [],
    db := [⟨"key-1", generate_request_hash sampleRequest, respFirst, 86400⟩] }

/-- The conflicting second request (same key, different amount) against the
cold-cache store. -/
def envConflictCold : Env :=
  { txn := reqB, store := storeCold, now := 10, freshId := "tid-2",
    idemCheckOk := true, rulesOutcome := .ok [], mlOutcome := .ok (1/2),
    persistOk := true, dbCreatedAt := 12, storeOk := true }

/-- The conflicting second request against the warm-cache store. -/
def envConflictWarm : Env := { envConflictCold with store := storeWarm }

/-- C1 evaluated at the failing input: `reqB` shares the idempotency key of
`sampleRequest` but differs in body; after the first commit,
`check_idempotency_key` does raise the 409 on the cold-cache path, yet
`process_transaction` answers 2xx in both states — with a warm cache it
silently replays the response computed for the first body (the cache path
never compares hashes, `app/idempotency.py` lines 31-33), and with a cold
cache the raised 409 is swallowed by the broad `except` (`app/main.py`
lines 164-170) and a fresh 2xx decision is returned. -/
theorem conflict_not_surfaced :
    sampleRequest.idempotency_key = reqB.idempotency_key
    ∧ sampleRequest ≠ reqB
    ∧ store_idempotency_key ⟨[], []⟩ 0 "key-1" sampleRequest respFirst = .ok storeWarm
    ∧ check_idempotency_key storeCold 10 "key-1" reqB = CheckResult.conflict
    ∧ process_transaction envConflictCold
        = .ok (buildResponse envConflictCold (1/2), storeCold)
    ∧ process_transaction envConflictWarm = .ok (respFirst, storeWarm) := by
  refine ⟨rfl, by decide, ?_, rfl, rfl, rfl⟩
  show store_idempotency_key ⟨[], []⟩ 0 "key-1" sampleRequest respFirst = .ok storeWarm
  norm_num [store_idempotency_key, dbFind, set_idempotency_response, storeWarm,
    List.find?]

end SentinelStream
